import Mathlib

/-!
# Verification of the code-assist proxy request-processing core

Shallow embedding of the proxy's transform engine, resilience layer,
token lifecycle manager and project identity resolver, together with
proofs about the behaviours the design document ascribes to them.

JavaScript machine integers and timestamps are modelled as `Nat`
(timestamps are non-negative epoch milliseconds), JSON numbers on the
integer fragment of the JSON grammar (floating-point formatting of the
host runtime is outside the model), and fallible operations return
`Option`/`Except`.
-/

/-- JSON values as produced by `JSON.parse`. Number literals are modelled
on the integer fragment of JSON. -/
inductive JVal where
  | null : JVal
  | bool (b : Bool) : JVal
  | num (n : Int) : JVal
  | str (s : String) : JVal
  | arr (elems : List JVal) : JVal
  | obj (fields : List (String × JVal)) : JVal

/-- JSON whitespace characters. -/
def jsonWs (c : Char) : Bool :=
  c = ' ' || c = '\t' || c = '\n' || c = '\r'

/-- Skip leading JSON whitespace. -/
def skipWs : List Char → List Char
  | c :: cs => if jsonWs c then skipWs cs else c :: cs
  | [] => []

/-- Value of a hexadecimal digit. -/
def hexVal (c : Char) : Option Nat :=
  if '0' ≤ c ∧ c ≤ '9' then some (c.toNat - '0'.toNat)
  else if 'a' ≤ c ∧ c ≤ 'f' then some (c.toNat - 'a'.toNat + 10)
  else if 'A' ≤ c ∧ c ≤ 'F' then some (c.toNat - 'A'.toNat + 10)
  else none

/-- Body of a JSON string literal after the opening quote: returns the
decoded characters and the remaining input.  Escapes follow the JSON
grammar; an unescaped control character is a parse error. -/
def parseStringAux (acc : List Char) (cs : List Char) : Option (List Char × List Char) :=
  match cs with
  | [] => none
  | '"' :: rest => some (acc.reverse, rest)
  | '\\' :: esc :: rest =>
    match esc with
    | '"' => parseStringAux ('"' :: acc) rest
    | '\\' => parseStringAux ('\\' :: acc) rest
    | '/' => parseStringAux ('/' :: acc) rest
    | 'b' => parseStringAux ('\x08' :: acc) rest
    | 'f' => parseStringAux ('\x0c' :: acc) rest
    | 'n' => parseStringAux ('\n' :: acc) rest
    | 'r' => parseStringAux ('\r' :: acc) rest
    | 't' => parseStringAux ('\t' :: acc) rest
    | 'u' =>
      match rest with
      | h1 :: h2 :: h3 :: h4 :: rest' =>
        match hexVal h1, hexVal h2, hexVal h3, hexVal h4 with
        | some a, some b, some c, some d =>
          parseStringAux (Char.ofNat (((a * 16 + b) * 16 + c) * 16 + d) :: acc) rest'
        | _, _, _, _ => none
      | _ => none
    | _ => none
  | c :: rest => if c.toNat < 0x20 then none else parseStringAux (c :: acc) rest

/-- Leading decimal digits of the input (at least one). -/
def takeDigits : List Char → List Char × List Char
  | c :: cs =>
    if '0' ≤ c ∧ c ≤ '9' then
      let p := takeDigits cs
      (c :: p.1, p.2)
    else ([], c :: cs)
  | [] => ([], [])

/-- Decimal value of a digit string. -/
def digitsToNat (ds : List Char) : Nat :=
  ds.foldl (fun acc c => acc * 10 + (c.toNat - '0'.toNat)) 0

/-- JSON number literal on the integer fragment: optional minus and digits
without a leading zero; a following `.`/`e`/`E` (fraction or exponent)
falls outside the modelled fragment and is rejected. -/
def parseNumber (cs : List Char) : Option (JVal × List Char) :=
  let (neg, cs1) := match cs with
    | '-' :: rest => (true, rest)
    | _ => (false, cs)
  match takeDigits cs1 with
  | ([], _) => none
  | (d :: ds, rest) =>
    if d = '0' ∧ ds ≠ [] then none
    else
      match rest with
      | '.' :: _ => none
      | 'e' :: _ => none
      | 'E' :: _ => none
      | _ =>
        let n : Int := Int.ofNat (digitsToNat (d :: ds))
        some (.num (if neg then -n else n), rest)

/-- JS property assignment on an ordered field list: an existing key keeps
its position and takes the new value, a new key is appended. -/
def setEntry {α : Type} (fs : List (String × α)) (k : String) (v : α) : List (String × α) :=
  if fs.any (fun p => p.1 = k) then
    fs.map (fun p => if p.1 = k then (k, v) else p)
  else fs ++ [(k, v)]

/-- Property lookup on an ordered field list. -/
def lookupEntry {α : Type} (fs : List (String × α)) (k : String) : Option α :=
  (fs.find? (fun p => p.1 = k)).map (fun p => p.2)

/-- `JSON.parse` builds objects by assigning the parsed entries in order
(duplicate keys: last value wins, first position kept). -/
def buildJsObj (entries : List (String × JVal)) : List (String × JVal) :=
  entries.foldl (fun acc e => setEntry acc e.1 e.2) []

mutual

/-- Recursive-descent JSON value parser (fuel-indexed). -/
def parseVal : Nat → List Char → Option (JVal × List Char)
  | 0, _ => none
  | f + 1, cs =>
    match skipWs cs with
    | 'n' :: 'u' :: 'l' :: 'l' :: rest => some (.null, rest)
    | 't' :: 'r' :: 'u' :: 'e' :: rest => some (.bool true, rest)
    | 'f' :: 'a' :: 'l' :: 's' :: 'e' :: rest => some (.bool false, rest)
    | '"' :: rest => (parseStringAux [] rest).map (fun p => (.str (String.mk p.1), p.2))
    | '[' :: rest =>
      (match skipWs rest with
       | ']' :: rest' => some (.arr [], rest')
       | _ => (parseArrItems f rest).map (fun p => (.arr p.1, p.2)))
    | '{' :: rest =>
      (match skipWs rest with
       | '}' :: rest' => some (.obj [], rest')
       | _ => (parseObjItems f rest).map (fun p => (.obj (buildJsObj p.1), p.2)))
    | other => parseNumber other

/-- Comma-separated array elements up to the closing bracket. -/
def parseArrItems : Nat → List Char → Option (List JVal × List Char)
  | 0, _ => none
  | f + 1, cs => do
    let (v, rest) ← parseVal f cs
    match skipWs rest with
    | ',' :: rest' => do
      let (vs, rest'') ← parseArrItems f rest'
      return (v :: vs, rest'')
    | ']' :: rest' => return ([v], rest')
    | _ => none

/-- Comma-separated `"key": value` members up to the closing brace. -/
def parseObjItems : Nat → List Char → Option (List (String × JVal) × List Char)
  | 0, _ => none
  | f + 1, cs =>
    match skipWs cs with
    | '"' :: rest => do
      let (kcs, rest1) ← parseStringAux [] rest
      match skipWs rest1 with
      | ':' :: rest2 => do
        let (v, rest3) ← parseVal f rest2
        match skipWs rest3 with
        | ',' :: rest4 => do
          let (fs, rest5) ← parseObjItems f rest4
          return ((String.mk kcs, v) :: fs, rest5)
        | '}' :: rest4 => return ([(String.mk kcs, v)], rest4)
        | _ => none
      | _ => none
    | _ => none

end

/-- `JSON.parse`: parse one value and require only whitespace to remain. -/
def parseJson (s : String) : Option JVal :=
  match parseVal (s.length + 1) s.data with
  | some (v, rest) => if skipWs rest = [] then some v else none
  | none => none

/-- Lower-case hexadecimal digit. -/
def hexDigit (n : Nat) : Char :=
  if n < 10 then Char.ofNat ('0'.toNat + n) else Char.ofNat ('a'.toNat + n - 10)

/-- `JSON.stringify` escaping of one string character. -/
def escChar (c : Char) : String :=
  if c = '"' then "\\\""
  else if c = '\\' then "\\\\"
  else if c = '\n' then "\\n"
  else if c = '\r' then "\\r"
  else if c = '\t' then "\\t"
  else if c = '\x08' then "\\b"
  else if c = '\x0c' then "\\f"
  else if c.toNat < 0x20 then
    String.mk ['\\', 'u', '0', '0', hexDigit (c.toNat / 16), hexDigit (c.toNat % 16)]
  else String.singleton c

/-- `JSON.stringify` of a string. -/
def escString (s : String) : String :=
  "\"" ++ String.join (s.data.map escChar) ++ "\""

mutual

/-- `JSON.stringify` with no indentation (field order preserved). -/
def stringifyJson : JVal → String
  | .null => "null"
  | .bool true => "true"
  | .bool false => "false"
  | .num n => toString n
  | .str s => escString s
  | .arr xs => "[" ++ stringifyList xs ++ "]"
  | .obj fs => "\x7b" ++ stringifyFields fs ++ "\x7d"

/-- Comma-joined serialization of array elements. -/
def stringifyList : List JVal → String
  | [] => ""
  | [x] => stringifyJson x
  | x :: y :: xs => stringifyJson x ++ "," ++ stringifyList (y :: xs)

/-- Comma-joined serialization of object members. -/
def stringifyFields : List (String × JVal) → String
  | [] => ""
  | [(k, v)] => escString k ++ ":" ++ stringifyJson v
  | (k, v) :: e :: fs => escString k ++ ":" ++ stringifyJson v ++ "," ++ stringifyFields (e :: fs)

end

/-- JavaScript truthiness of a JSON value (`if (cloudCodeResp.response)`). -/
def jsTruthy : JVal → Bool
  | .null => false
  | .bool b => b
  | .num n => n != 0
  | .str s => s != ""
  | .arr _ => true
  | .obj _ => true

/-- Fields contributed by spreading a value into an object literal:
objects give their fields, arrays and strings give index properties,
other primitives give nothing. -/
def jsSpread : JVal → List (String × JVal)
  | .obj fs => fs
  | .arr xs => (xs.enum).map (fun p => (toString p.1, p.2))
  | .str s => (s.data.enum).map (fun p => (toString p.1, JVal.str (String.singleton p.2)))
  | _ => []

/-- The object literal spread-merge of two values, as in
`\x7b ...a, ...b \x7d`: fields of `a` assigned in order, then fields of `b`
(existing keys keep their position, later values win). -/
def jsMergeSpread (a b : JVal) : List (String × JVal) :=
  (jsSpread b).foldl (fun acc e => setEntry acc e.1 e.2) (jsSpread a)

/-- The `response` property of a value. `none` models the TypeError thrown
by property access on `null`; `some none` models `undefined`. -/
def getResponseField : JVal → Option (Option JVal)
  | .null => none
  | .obj fs => some (lookupEntry fs "response")
  | _ => some none

/-- `unwrapCloudCodeResponse` (src/transform.ts): when `cloudCodeResp.response`
is truthy it returns `\x7b ...cloudCodeResp, ...cloudCodeResp.response \x7d`,
otherwise the value unchanged; `none` models a thrown TypeError. -/
def unwrapCloudCodeResponse (cloudCodeResp : JVal) : Option JVal :=
  match getResponseField cloudCodeResp with
  | none => none
  | some respField =>
    match respField with
    | some r =>
      if jsTruthy r then some (.obj (jsMergeSpread cloudCodeResp r))
      else some cloudCodeResp
    | none => some cloudCodeResp

/-- One complete SSE line of `createSSETransformStream.transform`
(src/transform.ts): a line longer than 6 characters starting with
`data: ` has its payload parsed, unwrapped and re-serialized; a parse
(or unwrap) error passes the original line through; every other line
passes through; the trailing newline is re-emitted. -/
def processSSELineL (line : List Char) : List Char :=
  match line with
  | 'd' :: 'a' :: 't' :: 'a' :: ':' :: ' ' :: c0 :: restChars =>
    let jsonData : List Char := c0 :: restChars
    match parseJson (String.mk jsonData) with
    | some cloudCodeResp =>
      match unwrapCloudCodeResponse cloudCodeResp with
      | some geminiResp => ("data: " ++ stringifyJson geminiResp).data ++ ['\n']
      | none => line ++ ['\n']
    | none => line ++ ['\n']
  | _ => line ++ ['\n']

/-- String form of `processSSELineL`. -/
def processSSELine (line : String) : String :=
  String.mk (processSSELineL line.data)

/-- Split a buffer at newline boundaries: the complete lines (newline
consumed) and the trailing partial line, as the `indexOf`-driven loop of
the SSE transform does. -/
def sseLines : List Char → List (List Char) × List Char
  | [] => ([], [])
  | c :: cs =>
    if c = '\n' then
      let p := sseLines cs
      ([] :: p.1, p.2)
    else
      match sseLines cs with
      | ([], rem) => ([], c :: rem)
      | (l :: ls, rem) => ((c :: l) :: ls, rem)

/-- One `transform` call of the SSE stream on the decoded buffer: emit the
rewrite of every complete line, keep the trailing partial line buffered. -/
def sseTransformChunkL (buffer : List Char) : List Char × List Char :=
  let p := sseLines buffer
  ((p.1.map processSSELineL).flatten, p.2)

/-- The `flush` handler of the SSE stream: a leftover buffer starting with
`data: ` gets a best-effort parse/unwrap (with a newline appended on
success and the raw buffer emitted on failure); any other leftover is
emitted as-is; an empty payload after `data: ` emits nothing. -/
def sseFlushL (buffer : List Char) : List Char :=
  match buffer with
  | [] => []
  | 'd' :: 'a' :: 't' :: 'a' :: ':' :: ' ' :: restChars =>
    match restChars with
    | [] => []
    | _ =>
      match parseJson (String.mk restChars) with
      | some cloudCodeResp =>
        match unwrapCloudCodeResponse cloudCodeResp with
        | some geminiResp => ("data: " ++ stringifyJson geminiResp).data ++ ['\n']
        | none => buffer
      | none => buffer
  | _ => buffer

/-- End-to-end SSE transform over a list of decoded text chunks:
fold the per-chunk transform carrying the partial-line buffer, then flush. -/
def sseTransform (chunks : List String) : String :=
  let r := chunks.foldl
    (fun (acc : List Char × List Char) (chunk : String) =>
      let p := sseTransformChunkL (acc.2 ++ chunk.data)
      (acc.1 ++ p.1, p.2))
    (([] : List Char), ([] : List Char))
  String.mk (r.1 ++ sseFlushL r.2)

/-- Circuit breaker state tag (`'CLOSED' | 'OPEN' | 'HALF_OPEN'`). -/
inductive CBTag where
  | CLOSED : CBTag
  | OPEN : CBTag
  | HALF_OPEN : CBTag
deriving DecidableEq, Repr

/-- `CircuitBreakerState` (types.ts): per-name mutable breaker record. -/
structure CircuitBreakerState where
  state : CBTag
  failureCount : Nat
  lastFailureTime : Nat
  nextAttemptTime : Nat
  successCount : Nat
deriving DecidableEq, Repr

/-- `CircuitBreakerConfig`. -/
structure CircuitBreakerConfig where
  failureThreshold : Nat
  timeoutMs : Nat
  halfOpenMaxCalls : Nat
  resetTimeoutMs : Nat
deriving DecidableEq, Repr

/-- The constructor's initial breaker state. -/
def cbInitial : CircuitBreakerState :=
  { state := .CLOSED, failureCount := 0, lastFailureTime := 0,
    nextAttemptTime := 0, successCount := 0 }

/-- `CircuitBreaker.open`: trip to OPEN and schedule the next attempt. -/
def cbOpen (cfg : CircuitBreakerConfig) (s : CircuitBreakerState) (now : Nat) :
    CircuitBreakerState :=
  { s with state := .OPEN, nextAttemptTime := now + cfg.resetTimeoutMs }

/-- `CircuitBreaker.reset`: back to CLOSED with all counters cleared. -/
def cbReset (s : CircuitBreakerState) : CircuitBreakerState :=
  { s with state := .CLOSED, failureCount := 0, successCount := 0,
           lastFailureTime := 0, nextAttemptTime := 0 }

/-- `CircuitBreaker.onSuccess`. -/
def cbOnSuccess (cfg : CircuitBreakerConfig) (s : CircuitBreakerState) :
    CircuitBreakerState :=
  if s.state = .HALF_OPEN then
    let s1 := { s with successCount := s.successCount + 1 }
    if s1.successCount ≥ cfg.halfOpenMaxCalls then cbReset s1 else s1
  else if s.state = .CLOSED then { s with failureCount := 0 }
  else s

/-- `CircuitBreaker.onFailure`.  The two `Date.now()` calls inside one
synchronous failure handler are modelled as the single instant `now`. -/
def cbOnFailure (cfg : CircuitBreakerConfig) (s : CircuitBreakerState) (now : Nat) :
    CircuitBreakerState :=
  let s1 := { s with failureCount := s.failureCount + 1, lastFailureTime := now }
  if s1.state = .HALF_OPEN then cbOpen cfg s1 now
  else if s1.failureCount ≥ cfg.failureThreshold then cbOpen cfg s1 now
  else s1

/-- The entry check of `CircuitBreaker.execute`: an OPEN breaker before
`nextAttemptTime` refuses (`false`: the operation is not invoked); at or
after it the breaker moves to HALF_OPEN with a fresh success counter. -/
def cbEnter (s : CircuitBreakerState) (now : Nat) : CircuitBreakerState × Bool :=
  if s.state = .OPEN then
    if now < s.nextAttemptTime then (s, false)
    else ({ s with state := .HALF_OPEN, successCount := 0 }, true)
  else (s, true)

/-- Outcome of one `execute` call: fast-fail without invoking the
operation, or the operation's own success/failure (re-thrown). -/
inductive CBExecResult where
  | fastFail : CBExecResult
  | success : CBExecResult
  | failure : CBExecResult
deriving DecidableEq, Repr

/-- `CircuitBreaker.execute`: `tCheck` is the clock at the entry check,
`tSettle` at settlement of the awaited operation, whose outcome is
`opFails`. -/
def cbExecute (cfg : CircuitBreakerConfig) (s : CircuitBreakerState)
    (tCheck tSettle : Nat) (opFails : Bool) : CircuitBreakerState × CBExecResult :=
  let e := cbEnter s tCheck
  if e.2 then
    if opFails then (cbOnFailure cfg e.1 tSettle, .failure)
    else (cbOnSuccess cfg e.1, .success)
  else (e.1, .fastFail)

/-- Fold a run of `execute` calls, each given as
`(tCheck, tSettle, opFails)`. -/
def cbRun (cfg : CircuitBreakerConfig) (s : CircuitBreakerState)
    (calls : List (Nat × Nat × Bool)) : CircuitBreakerState :=
  calls.foldl (fun st c => (cbExecute cfg st c.1 c.2.1 c.2.2).1) s

/-- Exponential-backoff delay of `RetryManager.executeWithExponentialBackoff`:
`min(baseDelayMs * 2^attempt, maxDelayMs)` plus that capped delay times
`jitterFactor` times the draw `r` of `Math.random()`. -/
def backoffDelay (baseDelayMs maxDelayMs jitterFactor : ℚ) (attempt : Nat) (r : ℚ) : ℚ :=
  let exponentialDelay := min (baseDelayMs * 2 ^ attempt) maxDelayMs
  exponentialDelay + exponentialDelay * jitterFactor * r

/-- Observable run of a retried operation: final result, number of times
the operation was invoked, and the inter-attempt delays in order. -/
structure RetryRun (E V : Type) where
  result : Except E V
  invocations : Nat
  delays : List ℚ
deriving Repr

/-- The attempt loop of `executeWithExponentialBackoff`, at `attempt` with
`remaining` further attempts allowed; `rand a` is the `Math.random()` draw
of attempt `a`. -/
def retryGo {E V : Type} (op : Nat → Except E V) (rand : Nat → ℚ)
    (baseDelayMs maxDelayMs jitterFactor : ℚ) :
    Nat → Nat → RetryRun E V
  | attempt, 0 =>
    match op attempt with
    | .ok v => ⟨.ok v, 1, []⟩
    | .error e => ⟨.error e, 1, []⟩
  | attempt, remaining + 1 =>
    match op attempt with
    | .ok v => ⟨.ok v, 1, []⟩
    | .error _ =>
      let d := backoffDelay baseDelayMs maxDelayMs jitterFactor attempt (rand attempt)
      let rest := retryGo op rand baseDelayMs maxDelayMs jitterFactor (attempt + 1) remaining
      ⟨rest.result, rest.invocations + 1, d :: rest.delays⟩

/-- `RetryManager.executeWithExponentialBackoff` (defaults `maxRetries=3`,
`baseDelayMs=1000`, `maxDelayMs=10000`, `jitterFactor=0.1`): attempts
`0..maxRetries`, sleeping `backoffDelay` between failures, and rethrows
the last error when every attempt fails. -/
def executeWithExponentialBackoff {E V : Type} (op : Nat → Except E V) (rand : Nat → ℚ)
    (maxRetries : Nat) (baseDelayMs maxDelayMs jitterFactor : ℚ) : RetryRun E V :=
  retryGo op rand baseDelayMs maxDelayMs jitterFactor 0 maxRetries

/-- `ErrorType` (error handler). -/
inductive ErrorType where
  | CLIENT_ERROR : ErrorType
  | AUTH_ERROR : ErrorType
  | UPSTREAM_ERROR : ErrorType
  | SYSTEM_ERROR : ErrorType
deriving DecidableEq, Repr

/-- `ErrorClassification`. -/
structure ErrorClassification where
  type : ErrorType
  statusCode : Nat
  message : String
  isRetryable : Bool
  shouldClearCache : Bool
deriving DecidableEq, Repr

/-- `ErrorHandler.getClientErrorMessage`. -/
def getClientErrorMessage (statusCode : Nat) : String :=
  if statusCode = 400 then "Invalid request format"
  else if statusCode = 403 then "Access forbidden"
  else if statusCode = 404 then "Resource not found"
  else if statusCode = 405 then "Method not allowed"
  else if statusCode = 408 then "Request timeout"
  else if statusCode = 413 then "Request too large"
  else if statusCode = 422 then "Invalid request parameters"
  else if statusCode = 429 then "Rate limit exceeded"
  else "Client error"

/-- `String.prototype.toLowerCase` (ASCII). -/
def lowerStr (s : String) : String :=
  String.mk (s.data.map Char.toLower)

/-- `ErrorHandler.classifyHttpError` (status-code-first rules).
`statusText` only seeds the sanitized message, which every branch
overwrites with its own constant. -/
def classifyHttpError (statusCode : Nat) (statusText : String) : ErrorClassification :=
  if 400 ≤ statusCode ∧ statusCode < 500 then
    if statusCode = 401 then
      ⟨.AUTH_ERROR, statusCode, "Authentication failed", true, true⟩
    else if statusCode = 429 then
      ⟨.CLIENT_ERROR, statusCode, "Rate limit exceeded", true, false⟩
    else
      ⟨.CLIENT_ERROR, statusCode, getClientErrorMessage statusCode, false, false⟩
  else if 500 ≤ statusCode then
    ⟨.UPSTREAM_ERROR, statusCode, "Upstream service error", true, false⟩
  else
    ⟨.SYSTEM_ERROR, statusCode, "Unexpected response status", false, false⟩

/-- Does the second list begin the first? -/
def hasLead : List Char → List Char → Bool
  | _, [] => true
  | [], _ :: _ => false
  | b :: bs, a :: as => a = b && hasLead bs as

/-- Does the needle occur inside the haystack? -/
def hasSub : List Char → List Char → Bool
  | hay, needle =>
    hasLead hay needle ||
      match hay with
      | [] => false
      | _ :: tl => hasSub tl needle

/-- `String.prototype.includes`. -/
def containsSub (s sub : String) : Bool :=
  hasSub s.data sub.data

/-- `ErrorHandler.classifyErrorByMessage`: status-code ranges first, then
substring pattern-matching on the lower-cased message, else SYSTEM_ERROR. -/
def classifyErrorByMessage (errorMessage : String) (statusCode : Nat) :
    ErrorClassification :=
  let lowerMessage := lowerStr errorMessage
  if 500 ≤ statusCode then
    ⟨.UPSTREAM_ERROR, statusCode, "Upstream service error", true, false⟩
  else if statusCode = 401 then
    ⟨.AUTH_ERROR, statusCode, "Authentication error", true, true⟩
  else if 400 ≤ statusCode ∧ statusCode < 500 then
    ⟨.CLIENT_ERROR, statusCode, getClientErrorMessage statusCode, false, false⟩
  else if containsSub lowerMessage "token" || containsSub lowerMessage "auth" ||
      containsSub lowerMessage "unauthorized" then
    ⟨.AUTH_ERROR, statusCode, "Authentication error", true, true⟩
  else if containsSub lowerMessage "network" || containsSub lowerMessage "timeout" ||
      containsSub lowerMessage "connection" then
    ⟨.UPSTREAM_ERROR, statusCode, "Network connectivity error", true, false⟩
  else if containsSub lowerMessage "invalid" || containsSub lowerMessage "malformed" ||
      containsSub lowerMessage "bad request" then
    ⟨.CLIENT_ERROR, statusCode, "Invalid request format", false, false⟩
  else
    ⟨.SYSTEM_ERROR, statusCode, "Internal processing error", false, false⟩

/-- The raw failure handed to `ErrorHandler.classifyError`: a `Response`
(or status-carrying object), an `Error`, a plain string, or anything else. -/
inductive RawError where
  | resp (status : Nat) (statusText : String) : RawError
  | err (message : String) : RawError
  | str (s : String) : RawError
  | other : RawError
deriving DecidableEq, Repr

/-- JS `x || 500` on an optional status (`0` and absence are falsy). -/
def statusOr500 (statusCode : Option Nat) : Nat :=
  match statusCode with
  | some s => if s = 0 then 500 else s
  | none => 500

/-- `ErrorHandler.classifyError`: dispatch on the error shape, defaulting
the status to 500 when it is absent (or falsy). -/
def classifyError (error : RawError) (statusCode : Option Nat) : ErrorClassification :=
  match error with
  | .resp st txt => classifyHttpError (if st = 0 then statusOr500 statusCode else st) txt
  | .err m => classifyErrorByMessage m (statusOr500 statusCode)
  | .str s => classifyErrorByMessage s (statusOr500 statusCode)
  | .other => ⟨.SYSTEM_ERROR, 500, "Internal server error", false, false⟩

/-- `CachedTokenData` (auth): the cached OAuth token with metadata. -/
structure CachedTokenData where
  access_token : String
  expiry_date : Nat
  refresh_count : Nat
  last_used : Nat
  created_at : Nat
  token_type : String
  scope : String
deriving DecidableEq, Repr

/-- `TOKEN_BUFFER_TIME`: 5 minutes in milliseconds. -/
def TOKEN_BUFFER_TIME : Nat := 5 * 60 * 1000

/-- `AuthManager.isTokenValid`: usable while
`expiry_date - now > bufferMs` (the refresh buffer, default 5 minutes). -/
def isTokenValid (bufferMs now : Nat) (tokenData : CachedTokenData) : Bool :=
  now + bufferMs < tokenData.expiry_date

/-- `AuthManager.createTokenData`: fresh metadata record; `token_type` and
`scope` fall back to `"Bearer"` and `""` when the credentials omit them. -/
def createTokenData (accessToken : String) (expiryDate now : Nat)
    (credsTokenType credsScope : Option String) : CachedTokenData :=
  { access_token := accessToken
    expiry_date := expiryDate
    refresh_count := 0
    last_used := now
    created_at := now
    token_type :=
      match credsTokenType with
      | some t => if t = "" then "Bearer" else t
      | none => "Bearer"
    scope :=
      match credsScope with
      | some sc => sc
      | none => "" }

/-- The token construction of `AuthManager._performTokenRefresh` after a
successful refresh response `(accessToken, expiresIn)` at time `now`:
`expiry_date = now + expires_in*1000`, and the refresh count continues
from the in-memory token, falling back to the durable-store token when
the in-memory count is `0` or the token is absent (`|| 0` treats an
existing count of `0` as absent). -/
def performTokenRefresh (memTok kvTok : Option CachedTokenData)
    (accessToken : String) (expiresIn now : Nat) : CachedTokenData :=
  let expiryDate := now + expiresIn * 1000
  let memCount :=
    match memTok with
    | some t => t.refresh_count
    | none => 0
  let existingRefreshCount :=
    if memCount = 0 then
      match kvTok with
      | some t => t.refresh_count
      | none => 0
    else memCount
  let tokenData := createTokenData accessToken expiryDate now none none
  { tokenData with refresh_count := existingRefreshCount + 1 }

/-- The TTL computation of `AuthManager.cacheTokenWithMetadata`:
`floor((expiry_date - now)/1000)` clamped into `[0, 2^31 - 1]`; the
durable-store write happens only when the clamped TTL is positive
(`none` = no write). -/
def cacheTokenTtl (tokenData : CachedTokenData) (now : Nat) : Option Nat :=
  let ttl : Int := Int.fdiv ((tokenData.expiry_date : Int) - (now : Int)) 1000
  let safeTtl : Int := min (max ttl 0) 2147483647
  if 0 < safeTtl then some safeTtl.toNat else none

/-- The durable write of a successful refresh: the new token paired with
its clamped TTL, absent when the TTL clamps to zero. -/
def refreshKvWrite (memTok kvTok : Option CachedTokenData)
    (accessToken : String) (expiresIn now : Nat) : Option (CachedTokenData × Nat) :=
  let t := performTokenRefresh memTok kvTok accessToken expiresIn now
  (cacheTokenTtl t now).map (fun ttl => (t, ttl))

/-- In-memory `AuthManager` state: the cached token, whether `initPromise`
is set, and the start time of an outstanding `RefreshOperation`. -/
structure AuthState where
  cachedTokenData : Option CachedTokenData
  initDone : Bool
  refreshOpAt : Option Nat
deriving DecidableEq, Repr

/-- The collaborators of one `getAccessToken` run: the environment
credential (`access_token`, `expiry_date` in seconds, `token_type`,
`scope`), the durable-store token, and the token endpoint's response
(`none` = refresh HTTP failure). -/
structure AuthWorld where
  envCreds : Option (String × Nat × String × String)
  kvToken : Option CachedTokenData
  refreshResponse : Option (String × Nat)
deriving DecidableEq, Repr

/-- Outcome of one sequential step: it returned, threw, or parked on an
outstanding refresh (`waitForTokenRefresh`). -/
inductive StepOutcome where
  | ok : StepOutcome
  | failed : StepOutcome
  | waits : StepOutcome
deriving DecidableEq, Repr

/-- Result of one sequential `getAccessToken` run: outcome with the token
on success, the state afterwards, and how many refresh network calls the
run performed. -/
structure AuthCall where
  outcome : StepOutcome
  token : Option String
  state : AuthState
  refreshNetworkCalls : Nat
deriving DecidableEq, Repr

/-- A refresh that actually starts (`_performTokenRefresh` awaited to
completion within the run): on success the new token is cached and the
operation slot cleared; on HTTP failure `initPromise` is nulled and the
error propagates.  Exactly one network call either way. -/
def refreshStart (w : AuthWorld) (s : AuthState) (now : Nat) : AuthCall :=
  match w.refreshResponse with
  | some (tok, expiresIn) =>
    let t := performTokenRefresh s.cachedTokenData w.kvToken tok expiresIn now
    ⟨.ok, some t.access_token,
      { s with cachedTokenData := some t, refreshOpAt := none }, 1⟩
  | none =>
    ⟨.failed, none, { s with initDone := false, refreshOpAt := none }, 1⟩

/-- `AuthManager.refreshToken`: an outstanding operation younger than the
30-second staleness window is awaited (`waits` — no new network call); a
stale one is discarded and a fresh refresh starts. -/
def refreshTokenModel (w : AuthWorld) (s : AuthState) (now : Nat) : AuthCall :=
  match s.refreshOpAt with
  | some t0 =>
    if now - t0 < 30000 then ⟨.waits, none, s, 0⟩
    else refreshStart w s now
  | none => refreshStart w s now

/-- `AuthManager._initialize` body (sequential): valid in-memory token
wins; else require the environment credential; else adopt a valid
durable-store token (usage touched); else adopt the environment token
when outside `TOKEN_BUFFER_TIME` of its expiry; else refresh. -/
def initBody (w : AuthWorld) (s : AuthState) (now bufferMs : Nat) : AuthCall :=
  match w.envCreds with
  | none => ⟨.failed, none, s, 0⟩
  | some (envTok, envExpirySec, envTokenType, envScope) =>
    let kvValid :=
      match w.kvToken with
      | some kt => if isTokenValid bufferMs now kt then some kt else none
      | none => none
    match kvValid with
    | some kt =>
      ⟨.ok, none, { s with cachedTokenData := some { kt with last_used := now } }, 0⟩
    | none =>
      if now + TOKEN_BUFFER_TIME < envExpirySec * 1000 then
        let t := createTokenData envTok (envExpirySec * 1000) now
          (some envTokenType) (some envScope)
        ⟨.ok, none, { s with cachedTokenData := some t }, 0⟩
      else
        let r := refreshTokenModel w s now
        { r with token := none }

/-- `AuthManager.initialize` (sequential): a set `initPromise` returns at
once; otherwise `_initialize` runs and the promise stays set (except that
a failed refresh nulls it, inside `refreshStart`). -/
def initializeModel (w : AuthWorld) (s : AuthState) (now bufferMs : Nat) : AuthCall :=
  if s.initDone then ⟨.ok, none, s, 0⟩
  else
    let s1 := { s with initDone := true }
    match s1.cachedTokenData with
    | some t =>
      if isTokenValid bufferMs now t then ⟨.ok, none, s1, 0⟩
      else initBody w s1 now bufferMs
    | none => initBody w s1 now bufferMs

/-- `AuthManager.getAccessToken` as one sequential (uninterleaved) run at
time `now` with refresh buffer `bufferMs`: initialize, then return the
valid cached token (touching `last_used`), or wait on an outstanding
refresh, or refresh and return the new token. -/
def getAccessTokenModel (w : AuthWorld) (s : AuthState) (now bufferMs : Nat) : AuthCall :=
  let ini := initializeModel w s now bufferMs
  match ini.outcome with
  | .failed => ini
  | .waits => ini
  | .ok =>
    let s1 := ini.state
    match s1.cachedTokenData with
    | none => ⟨.failed, none, s1, ini.refreshNetworkCalls⟩
    | some t =>
      if isTokenValid bufferMs now t then
        ⟨.ok, some t.access_token,
          { s1 with cachedTokenData := some { t with last_used := now } },
          ini.refreshNetworkCalls⟩
      else
        match s1.refreshOpAt with
        | some _ => ⟨.waits, none, s1, ini.refreshNetworkCalls⟩
        | none =>
          let r := refreshTokenModel w s1 now
          match r.outcome, r.state.cachedTokenData with
          | .ok, some t2 =>
            ⟨.ok, some t2.access_token,
              { r.state with cachedTokenData := some { t2 with last_used := now } },
              ini.refreshNetworkCalls + r.refreshNetworkCalls⟩
          | .ok, none =>
            ⟨.failed, none, r.state, ini.refreshNetworkCalls + r.refreshNetworkCalls⟩
          | o, _ =>
            ⟨o, none, r.state, ini.refreshNetworkCalls + r.refreshNetworkCalls⟩

/-- Single-flight refresh state shared by concurrent `getAccessToken`
callers: the outstanding `RefreshOperation`'s start time, the callers
parked in `pendingRequests`, and the refresh network calls started. -/
structure SingleFlight where
  refreshOpAt : Option Nat
  waitingCallers : Nat
  networkCalls : Nat
deriving DecidableEq, Repr

/-- The atomic entry of one `getAccessToken` caller that finds its token
invalid at time `now`: a caller that observes an outstanding
`RefreshOperation` parks in `pendingRequests`
(`waitForTokenRefresh`); the caller that observes none reaches
`refreshToken`, which — with the slot still empty, there being no
suspension point in between — installs a new operation and starts the
one network refresh. -/
def sfArrive (s : SingleFlight) (now : Nat) : SingleFlight :=
  match s.refreshOpAt with
  | some _ => { s with waitingCallers := s.waitingCallers + 1 }
  | none =>
    { s with refreshOpAt := some now, networkCalls := s.networkCalls + 1 }

/-- Interleave the arrivals of concurrent callers (by arrival time) before
the refresh completes, starting from the idle state. -/
def sfRun (arrivals : List Nat) : SingleFlight :=
  arrivals.foldl sfArrive ⟨none, 0, 0⟩

/-- Completion of the awaited refresh with a now-valid `newToken`:
`processPendingRequests` resolves every parked caller, and each caller —
the initiator included — then returns `cachedTokenData.access_token`,
i.e. the new token. -/
def sfComplete (s : SingleFlight) (newToken : String) : List String :=
  List.replicate (s.waitingCallers + 1) newToken

/-- `Response.ok`: HTTP status in 200..299. -/
def respOk (status : Nat) : Bool :=
  200 ≤ status ∧ status < 300

/-- Observable outcome of one `AuthManager.callEndpoint` invocation:
result (the error carries the failing status), upstream fetches
performed, and whether the token cache was cleared. -/
structure CallEndpointRun where
  result : Except Nat Unit
  fetches : Nat
  clearedCache : Bool
deriving Repr

/-- `AuthManager.callEndpoint(method, body, isRetry)`: `status a` is the
upstream status of fetch attempt `a`.  A 401 on a non-retry call clears
the token cache and recurses once with `isRetry = true`; any other
non-success status (and a 401 on the retry) throws. -/
def callEndpointModel (status : Nat → Nat) (attempt : Nat) (isRetry : Bool) :
    CallEndpointRun :=
  let s := status attempt
  if respOk s then ⟨.ok (), 1, false⟩
  else if s = 401 ∧ isRetry = false then
    let r := callEndpointModel status (attempt + 1) true
    ⟨r.result, r.fetches + 1, true⟩
  else ⟨.error s, 1, false⟩
termination_by (if isRetry then 0 else 1)
decreasing_by simp_all

/-- `ProjectCache.source`. -/
inductive CacheSource where
  | environment : CacheSource
  | discovery : CacheSource
  | cache : CacheSource
deriving DecidableEq, Repr

/-- `ProjectCache` (types.ts). -/
structure ProjectCache where
  project_id : String
  discovered_at : Nat
  ttl : Nat
  source : CacheSource
  validation_count : Nat
deriving DecidableEq, Repr

/-- `ProjectCacheManager.isCacheValid`: fresh while `now < ttl`. -/
def isCacheValid (now : Nat) (cache : ProjectCache) : Bool :=
  now < cache.ttl

/-- Observable outcome of `ProjectCacheManager.getProjectId`: the resolved
id (`none` = the final error is thrown), the memory cache afterwards, and
the durable-store write if any. -/
structure ProjectIdRun where
  result : Option String
  memCache : Option ProjectCache
  kvWrite : Option ProjectCache
deriving DecidableEq, Repr

/-- `PROJECT_ID_CACHE_TTL`: 1 hour in milliseconds. -/
def PROJECT_ID_CACHE_TTL : Nat := 60 * 60 * 1000

/-- `ProjectCacheManager.getProjectId` (sequential run at time `now`):
environment id first (cached with source `environment`); else a fresh
memory entry; else a fresh durable-store entry (promoted to memory); else
discovery (`disc` is its result, `none` = the call failed), cached in
memory and the durable store; on discovery failure the in-memory entry —
even expired — is the last-resort fallback, else the run throws. -/
def getProjectIdModel (envProjectId : Option String)
    (mem kv : Option ProjectCache) (disc : Option String) (now : Nat) :
    ProjectIdRun :=
  let discoverPath : ProjectIdRun :=
    match disc with
    | some pid =>
      let projectCache : ProjectCache :=
        ⟨pid, now, now + PROJECT_ID_CACHE_TTL, .discovery, 1⟩
      ⟨some pid, some projectCache, some projectCache⟩
    | none =>
      match mem with
      | some c => ⟨some c.project_id, mem, none⟩
      | none => ⟨none, mem, none⟩
  let kvPath : ProjectIdRun :=
    match kv with
    | some kvCached =>
      if isCacheValid now kvCached then
        ⟨some kvCached.project_id, some kvCached, none⟩
      else discoverPath
    | none => discoverPath
  match envProjectId with
  | some pid =>
    let mem' :=
      match mem with
      | some c => if c.source = .environment then mem
                  else some ⟨pid, now, now + PROJECT_ID_CACHE_TTL, .environment, 0⟩
      | none => some ⟨pid, now, now + PROJECT_ID_CACHE_TTL, .environment, 0⟩
    ⟨some pid, mem', none⟩
  | none =>
    match mem with
    | some c =>
      if isCacheValid now c then ⟨some c.project_id, mem, none⟩
      else kvPath
    | none => kvPath

/-- A JavaScript value held in an object field of the heap model:
`null`, a string primitive, or a reference to a heap object. -/
inductive HVal where
  | null : HVal
  | str (s : String) : HVal
  | ref (addr : Nat) : HVal
deriving DecidableEq, Repr

/-- An object: ordered key/value fields. -/
abbrev HObj : Type := List (String × HVal)

/-- The heap: objects addressed by allocation index. -/
abbrev Heap : Type := List HObj

/-- Read the object at an address. -/
def heapGet (h : Heap) (a : Nat) : Option HObj :=
  h[a]?

/-- Allocate a fresh object, returning its address. -/
def heapAlloc (h : Heap) (o : HObj) : Heap × Nat :=
  (h ++ [o], h.length)

/-- JS property assignment `h[a].k = v` on the heap. -/
def heapWrite (h : Heap) (a : Nat) (k : String) (v : HVal) : Heap :=
  h.set a (setEntry ((heapGet h a).getD []) k v)

/-- Fields contributed by spreading `v` into an object literal in the heap
model: a referenced object's fields (shallow copy), a string's index
properties, nothing for `null`. -/
def heapSpread (h : Heap) (v : HVal) : HObj :=
  match v with
  | .ref a => (heapGet h a).getD []
  | .str s => (s.data.enum).map (fun p => (toString p.1, HVal.str (String.singleton p.2)))
  | .null => []

/-- `buildCloudCodeRequestBody` (src/transform.ts) over the heap model.
For `countTokens` the inner request (`originalBody.generateContentRequest
?? originalBody`; `??` falls back on `null`/absent) is shallow-copied into
a fresh object, whose `model` field is then assigned; other actions
allocate `\x7b model, project, request: originalBody \x7d` referencing the
original body.  Returns the new heap and the result's address. -/
def buildCloudCodeRequestBody (h : Heap) (bodyAddr : Nat)
    (model action projectId : String) : Heap × Nat :=
  if action = "countTokens" then
    let bodyFields := (heapGet h bodyAddr).getD []
    let innerSource : HObj :=
      match lookupEntry bodyFields "generateContentRequest" with
      | some (.ref a) => (heapGet h a).getD []
      | some (.str s) => heapSpread h (.str s)
      | some .null => bodyFields
      | none => bodyFields
    let h1p := heapAlloc h innerSource
    let h2 := heapWrite h1p.1 h1p.2 "model" (.str ("models/" ++ model))
    heapAlloc h2 [("request", .ref h1p.2)]
  else
    heapAlloc h
      [("model", .str model), ("project", .str projectId), ("request", .ref bodyAddr)]

theorem processSSELineL_data (c : Char) (cs : List Char) :
    processSSELineL ('d' :: 'a' :: 't' :: 'a' :: ':' :: ' ' :: c :: cs) =
      (match parseJson (String.mk (c :: cs)) with
       | some v =>
         match unwrapCloudCodeResponse v with
         | some g => ("data: " ++ stringifyJson g).data ++ ['\n']
         | none => ('d' :: 'a' :: 't' :: 'a' :: ':' :: ' ' :: c :: cs) ++ ['\n']
       | none => ('d' :: 'a' :: 't' :: 'a' :: ':' :: ' ' :: c :: cs) ++ ['\n']) :=
  rfl

/-- C1 counterexample: the SSE transform does not flatten the `response`
envelope away — on `data: \x7b"response":\x7b"candidates":[1]\x7d\x7d\n` its
output is not the claimed `data: \x7b"candidates":[1]\x7d\n` (the spread
merge keeps the `response` key). -/
theorem sse_envelope_not_flattened :
    sseTransform ["data: \x7b\"response\":\x7b\"candidates\":[1]\x7d\x7d\n"] ≠
      "data: \x7b\"candidates\":[1]\x7d\n" := by
  decide

/-- C1 (amended): an SSE data line whose payload parses as JSON with a
truthy `response` field rewrites to the spread-merge
`\x7b ...body, ...body.response \x7d` (inner fields override, the `response`
key itself is retained unless overridden); concretely
`data: \x7b"response":\x7b"candidates":[1]\x7d\x7d\n` becomes
`data: \x7b"response":\x7b"candidates":[1]\x7d,"candidates":[1]\x7d\n`; any
data line whose payload the parser rejects — such as
`data: \x7bnot json\x7d\n` — passes through byte-identical. -/
theorem sse_rewrite_spread_merge :
    (sseTransform ["data: \x7b\"response\":\x7b\"candidates\":[1]\x7d\x7d\n"] =
        "data: \x7b\"response\":\x7b\"candidates\":[1]\x7d,\"candidates\":[1]\x7d\n" ∧
      sseTransform ["data: \x7bnot json\x7d\n"] = "data: \x7bnot json\x7d\n") ∧
    (∀ (p : List Char) (v w : JVal),
      parseJson (String.mk p) = some v →
      unwrapCloudCodeResponse v = some w →
      processSSELineL ("data: ".data ++ p) =
        ("data: " ++ stringifyJson w).data ++ ['\n']) ∧
    (∀ (p : List Char) (fs : List (String × JVal)) (r : JVal),
      parseJson (String.mk p) = some (.obj fs) →
      lookupEntry fs "response" = some r →
      jsTruthy r = true →
      processSSELineL ("data: ".data ++ p) =
        ("data: " ++ stringifyJson (.obj (jsMergeSpread (.obj fs) r))).data ++ ['\n']) ∧
    (∀ (p : List Char),
      parseJson (String.mk p) = none →
      processSSELineL ("data: ".data ++ p) = ("data: ".data ++ p) ++ ['\n']) := by
  refine ⟨⟨by decide, by decide⟩, ?_, ?_, ?_⟩
  · intro p v w hparse hunwrap
    cases p with
    | nil =>
      rw [show parseJson (String.mk []) = none from rfl] at hparse
      exact absurd hparse (by simp)
    | cons c cs =>
      have hd : "data: ".data ++ (c :: cs) =
          'd' :: 'a' :: 't' :: 'a' :: ':' :: ' ' :: c :: cs := rfl
      rw [hd, processSSELineL_data, hparse]
      simp only [hunwrap]
  · intro p fs r hparse hlook htruthy
    cases p with
    | nil =>
      rw [show parseJson (String.mk []) = none from rfl] at hparse
      exact absurd hparse (by simp)
    | cons c cs =>
      have hd : "data: ".data ++ (c :: cs) =
          'd' :: 'a' :: 't' :: 'a' :: ':' :: ' ' :: c :: cs := rfl
      have hunwrap : unwrapCloudCodeResponse (.obj fs) =
          some (.obj (jsMergeSpread (.obj fs) r)) := by
        simp [unwrapCloudCodeResponse, getResponseField, hlook, htruthy]
      rw [hd, processSSELineL_data, hparse]
      simp only [hunwrap]
  · intro p hparse
    cases p with
    | nil => rfl
    | cons c cs =>
      have hd : "data: ".data ++ (c :: cs) =
          'd' :: 'a' :: 't' :: 'a' :: ':' :: ' ' :: c :: cs := rfl
      rw [hd, processSSELineL_data, hparse]

/-- C1 witness: the generic parts of `sse_rewrite_spread_merge` evaluated
on the concrete envelope payload and the concrete non-JSON payload. -/
theorem sse_rewrite_spread_merge_witness :
    processSSELineL ("data: ".data ++ "\x7b\"a\":1,\"response\":\x7b\"b\":2\x7d\x7d".data) =
      ("data: " ++
        stringifyJson (.obj (jsMergeSpread
          (.obj [("a", .num 1), ("response", .obj [("b", .num 2)])])
          (.obj [("b", .num 2)])))).data ++ ['\n'] ∧
    processSSELineL ("data: ".data ++ "\x7bnot json\x7d".data) =
      ("data: ".data ++ "\x7bnot json\x7d".data) ++ ['\n'] := by
  constructor
  · exact sse_rewrite_spread_merge.2.2.1
      "\x7b\"a\":1,\"response\":\x7b\"b\":2\x7d\x7d".data
      [("a", .num 1), ("response", .obj [("b", .num 2)])]
      (.obj [("b", .num 2)]) (by rfl) (by rfl) (by rfl)
  · exact sse_rewrite_spread_merge.2.2.2 "\x7bnot json\x7d".data (by rfl)

theorem cbRun_successes (cfg : CircuitBreakerConfig) :
    ∀ (calls : List (Nat × Nat × Bool)) (s : CircuitBreakerState),
      s.state = .HALF_OPEN →
      s.successCount + calls.length = cfg.halfOpenMaxCalls →
      1 ≤ calls.length →
      (∀ c ∈ calls, c.2.2 = false) →
      cbRun cfg s calls = cbInitial := by
  intro calls
  induction calls with
  | nil => intro s _ _ hlen _; simp at hlen
  | cons c rest ih =>
    intro s hst hcount _ hsucc
    have hc : c.2.2 = false := hsucc c (List.mem_cons_self c rest)
    have hstep : (cbExecute cfg s c.1 c.2.1 c.2.2).1 =
        (if s.successCount + 1 ≥ cfg.halfOpenMaxCalls then
          cbReset { s with successCount := s.successCount + 1 }
         else { s with successCount := s.successCount + 1 }) := by
      rw [hc]
      simp [cbExecute, cbEnter, cbOnSuccess, hst]
    cases rest with
    | nil =>
      have hmax : s.successCount + 1 ≥ cfg.halfOpenMaxCalls := by
        simp at hcount; omega
      simp only [cbRun, List.foldl_cons, List.foldl_nil]
      rw [show (cbExecute cfg s c.1 c.2.1 c.2.2).1 =
          cbReset { s with successCount := s.successCount + 1 } by
        rw [hstep]; simp [hmax]]
      rfl
    | cons d rest' =>
      have hlt : ¬ (s.successCount + 1 ≥ cfg.halfOpenMaxCalls) := by
        simp at hcount; omega
      have hrun : cbRun cfg s (c :: d :: rest') =
          cbRun cfg (cbExecute cfg s c.1 c.2.1 c.2.2).1 (d :: rest') := by
        simp [cbRun]
      rw [hrun, hstep]
      simp only [hlt, if_false]
      exact ih { s with successCount := s.successCount + 1 } (by simp [hst])
        (by simp at hcount ⊢; omega) (by simp)
        (fun x hx => hsucc x (List.mem_cons_of_mem c hx))

/-- C2: the circuit breaker state machine.  With `failureThreshold = 2`,
two consecutive failures move CLOSED to OPEN with
`nextAttemptTime = lastFailure + resetTimeoutMs`; while OPEN a call
before `nextAttemptTime` fast-fails without invoking the operation; a
call at or after it enters HALF_OPEN with a fresh success counter;
`halfOpenMaxCalls` consecutive successes in HALF_OPEN restore CLOSED with
`failureCount` and `successCount` zero; any failure in HALF_OPEN reopens
immediately. -/
theorem circuit_breaker_transitions :
    (∀ (cfg : CircuitBreakerConfig) (t1 u1 t2 u2 : Nat) (s1 : CircuitBreakerState),
      cfg.failureThreshold = 2 →
      s1 = (cbExecute cfg cbInitial t1 u1 true).1 →
      s1.state = .CLOSED ∧ s1.failureCount = 1 ∧
      (cbExecute cfg s1 t2 u2 true).1.state = .OPEN ∧
      (cbExecute cfg s1 t2 u2 true).1.lastFailureTime = u2 ∧
      (cbExecute cfg s1 t2 u2 true).1.nextAttemptTime = u2 + cfg.resetTimeoutMs) ∧
    (∀ (cfg : CircuitBreakerConfig) (s : CircuitBreakerState) (t u : Nat) (b : Bool),
      s.state = .OPEN → t < s.nextAttemptTime →
      cbExecute cfg s t u b = (s, .fastFail)) ∧
    (∀ (s : CircuitBreakerState) (t : Nat),
      s.state = .OPEN → s.nextAttemptTime ≤ t →
      cbEnter s t = ({ s with state := .HALF_OPEN, successCount := 0 }, true)) ∧
    (∀ (cfg : CircuitBreakerConfig) (s : CircuitBreakerState)
        (calls : List (Nat × Nat × Bool)),
      s.state = .HALF_OPEN → s.successCount = 0 →
      calls.length = cfg.halfOpenMaxCalls → 1 ≤ calls.length →
      (∀ c ∈ calls, c.2.2 = false) →
      cbRun cfg s calls = cbInitial) ∧
    (∀ (cfg : CircuitBreakerConfig) (s : CircuitBreakerState) (t u : Nat),
      s.state = .HALF_OPEN →
      (cbExecute cfg s t u true).1.state = .OPEN ∧
      (cbExecute cfg s t u true).1.nextAttemptTime = u + cfg.resetTimeoutMs) := by
  refine ⟨?_, ?_, ?_, ?_, ?_⟩
  · intro cfg t1 u1 t2 u2 s1 hthresh hs1
    have h1 : s1 = { cbInitial with failureCount := 1, lastFailureTime := u1 } := by
      rw [hs1]
      simp [cbExecute, cbEnter, cbOnFailure, cbOpen, cbInitial, hthresh]
    subst h1
    refine ⟨rfl, rfl, ?_, ?_, ?_⟩ <;>
      simp [cbExecute, cbEnter, cbOnFailure, cbOpen, cbInitial, hthresh]
  · intro cfg s t u b hst ht
    simp [cbExecute, cbEnter, hst, ht]
  · intro s t hst ht
    simp [cbEnter, hst, Nat.not_lt.mpr ht]
  · intro cfg s calls hst hcount hlen hone hsucc
    exact cbRun_successes cfg calls s hst (by omega) hone hsucc
  · intro cfg s t u hst
    constructor <;> simp [cbExecute, cbEnter, cbOnFailure, cbOpen, hst]

/-- C2 witness: the transition properties at a concrete configuration
(`failureThreshold = 2`, `halfOpenMaxCalls = 2`, `resetTimeoutMs = 60000`)
and concrete clock values. -/
theorem circuit_breaker_transitions_witness :
    ((cbExecute ⟨2, 0, 2, 60000⟩
        (cbExecute ⟨2, 0, 2, 60000⟩ cbInitial 5 5 true).1 6 6 true).1.state = .OPEN) ∧
    (cbExecute ⟨2, 0, 2, 60000⟩ ⟨.OPEN, 2, 6, 60006, 0⟩ 7 8 true =
      (⟨.OPEN, 2, 6, 60006, 0⟩, .fastFail)) ∧
    (cbEnter ⟨.OPEN, 2, 6, 60006, 7⟩ 60006 = (⟨.HALF_OPEN, 2, 6, 60006, 0⟩, true)) ∧
    (cbRun ⟨2, 0, 2, 60000⟩ ⟨.HALF_OPEN, 2, 6, 60006, 0⟩
      [(9, 9, false), (10, 10, false)] = cbInitial) ∧
    ((cbExecute ⟨2, 0, 2, 60000⟩ ⟨.HALF_OPEN, 2, 6, 60006, 0⟩ 9 9 true).1.state = .OPEN) := by
  refine ⟨?_, ?_, ?_, ?_, ?_⟩
  · exact (circuit_breaker_transitions.1 ⟨2, 0, 2, 60000⟩ 5 5 6 6 _ rfl rfl).2.2.1
  · exact circuit_breaker_transitions.2.1 ⟨2, 0, 2, 60000⟩ ⟨.OPEN, 2, 6, 60006, 0⟩ 7 8
      true rfl (by decide)
  · exact circuit_breaker_transitions.2.2.1 ⟨.OPEN, 2, 6, 60006, 7⟩ 60006 rfl (by decide)
  · exact circuit_breaker_transitions.2.2.2.1 ⟨2, 0, 2, 60000⟩ ⟨.HALF_OPEN, 2, 6, 60006, 0⟩
      [(9, 9, false), (10, 10, false)] rfl rfl rfl (by decide) (by decide)
  · exact (circuit_breaker_transitions.2.2.2.2 ⟨2, 0, 2, 60000⟩ ⟨.HALF_OPEN, 2, 6, 60006, 0⟩
      9 9 rfl).1

theorem getAccessToken_valid_cached (w : AuthWorld) (s : AuthState)
    (now bufferMs : Nat) (t : CachedTokenData)
    (hmem : s.cachedTokenData = some t)
    (hval : isTokenValid bufferMs now t = true) :
    getAccessTokenModel w s now bufferMs =
      ⟨.ok, some t.access_token,
        { s with initDone := true,
                 cachedTokenData := some { t with last_used := now } }, 0⟩ := by
  have hini : initializeModel w s now bufferMs =
      ⟨.ok, none, { s with initDone := true }, 0⟩ := by
    cases hID : s.initDone with
    | true =>
      have : { s with initDone := true } = s := by
        cases s; simp_all
      rw [this]
      simp [initializeModel, hID]
    | false =>
      simp [initializeModel, hID, hmem, hval]
  simp [getAccessTokenModel, hini, hmem, hval]

/-- C3: while the cached token satisfies
`expiry_date - now > refreshBuffer`, `getAccessToken()` returns that
token's `access_token` with zero refresh network calls, and a repeated
call (still within validity) returns the same token, again with zero
refresh network calls. -/
theorem token_reuse_zero_refresh :
    ∀ (w : AuthWorld) (s : AuthState) (now now2 bufferMs : Nat) (t : CachedTokenData),
      s.cachedTokenData = some t →
      isTokenValid bufferMs now t = true →
      isTokenValid bufferMs now2 t = true →
      (getAccessTokenModel w s now bufferMs).outcome = .ok ∧
      (getAccessTokenModel w s now bufferMs).token = some t.access_token ∧
      (getAccessTokenModel w s now bufferMs).refreshNetworkCalls = 0 ∧
      (getAccessTokenModel w (getAccessTokenModel w s now bufferMs).state
          now2 bufferMs).token = some t.access_token ∧
      (getAccessTokenModel w (getAccessTokenModel w s now bufferMs).state
          now2 bufferMs).refreshNetworkCalls = 0 := by
  intro w s now now2 bufferMs t hmem hval hval2
  have h1 := getAccessToken_valid_cached w s now bufferMs t hmem hval
  have hval2' : isTokenValid bufferMs now2 { t with last_used := now } = true := by
    simpa [isTokenValid] using hval2
  have h2 := getAccessToken_valid_cached w
    { s with initDone := true, cachedTokenData := some { t with last_used := now } }
    now2 bufferMs { t with last_used := now } rfl hval2'
  rw [h1]
  refine ⟨rfl, rfl, rfl, ?_, ?_⟩ <;> (rw [h2])

/-- C3 witness: a cached token expiring in 10 minutes with the default
5-minute buffer is reused across two calls with zero refresh calls. -/
theorem token_reuse_zero_refresh_witness :
    isTokenValid 300000 0 ⟨"tok", 600000, 3, 0, 0, "Bearer", ""⟩ = true ∧
    (getAccessTokenModel ⟨none, none, none⟩
      ⟨some ⟨"tok", 600000, 3, 0, 0, "Bearer", ""⟩, false, none⟩ 0 300000).token =
      some "tok" ∧
    (getAccessTokenModel ⟨none, none, none⟩
      ⟨some ⟨"tok", 600000, 3, 0, 0, "Bearer", ""⟩, false, none⟩ 0 300000).refreshNetworkCalls = 0 := by
  have h := token_reuse_zero_refresh ⟨none, none, none⟩
    ⟨some ⟨"tok", 600000, 3, 0, 0, "Bearer", ""⟩, false, none⟩ 0 1 300000
    ⟨"tok", 600000, 3, 0, 0, "Bearer", ""⟩ rfl (by decide) (by decide)
  exact ⟨by decide, h.2.1, h.2.2.1⟩

theorem sfRun_absorb (ts : List Nat) :
    ∀ (s : SingleFlight) (t0 : Nat), s.refreshOpAt = some t0 →
      List.foldl sfArrive s ts = { s with waitingCallers := s.waitingCallers + ts.length } := by
  induction ts with
  | nil => intro s t0 _; simp
  | cons a ts ih =>
    intro s t0 hop
    have hstep : sfArrive s a = { s with waitingCallers := s.waitingCallers + 1 } := by
      simp [sfArrive, hop]
    simp only [List.foldl_cons, hstep]
    rw [ih { s with waitingCallers := s.waitingCallers + 1 } t0 (by simp [hop])]
    simp
    omega

/-- C4: when `N ≥ 1` callers with an expired token enter
`getAccessToken()` concurrently, in any arrival order and at any times
before the refresh completes, exactly one refresh network call is
started, the other `N - 1` callers park on the operation, and on
completion all `N` callers resolve to the new token. -/
theorem single_flight_refresh :
    ∀ (arrivals : List Nat) (newToken : String),
      arrivals ≠ [] →
      (sfRun arrivals).networkCalls = 1 ∧
      (sfRun arrivals).waitingCallers + 1 = arrivals.length ∧
      sfComplete (sfRun arrivals) newToken = List.replicate arrivals.length newToken := by
  intro arrivals newToken hne
  cases arrivals with
  | nil => exact absurd rfl hne
  | cons a ts =>
    have h0 : sfArrive ⟨none, 0, 0⟩ a = ⟨some a, 0, 1⟩ := by simp [sfArrive]
    have hrun : sfRun (a :: ts) = ⟨some a, ts.length, 1⟩ := by
      simp only [sfRun, List.foldl_cons, h0]
      rw [sfRun_absorb ts ⟨some a, 0, 1⟩ a rfl]
      simp
    rw [hrun]
    refine ⟨rfl, by simp, ?_⟩
    simp [sfComplete]

/-- C4 witness: three concurrent callers at times 1, 2, 3 produce one
network refresh and all three resolve to the new token. -/
theorem single_flight_refresh_witness :
    (sfRun [1, 2, 3]).networkCalls = 1 ∧
    sfComplete (sfRun [1, 2, 3]) "newTok" = ["newTok", "newTok", "newTok"] := by
  have h := single_flight_refresh [1, 2, 3] "newTok" (by decide)
  exact ⟨h.1, by rw [h.2.2]; rfl⟩

theorem callEndpointModel_eq (status : Nat → Nat) :
    callEndpointModel status 0 false =
      (if respOk (status 0) then (⟨.ok (), 1, false⟩ : CallEndpointRun)
       else if status 0 = 401 then
         (if respOk (status 1) then ⟨.ok (), 2, true⟩ else ⟨.error (status 1), 2, true⟩)
       else ⟨.error (status 0), 1, false⟩) := by
  have hinner : callEndpointModel status 1 true =
      (if respOk (status 1) then (⟨.ok (), 1, false⟩ : CallEndpointRun)
       else ⟨.error (status 1), 1, false⟩) := by
    rw [callEndpointModel]
    by_cases h : respOk (status 1) = true <;> simp [h]
  rw [callEndpointModel]
  by_cases h0 : respOk (status 0) = true
  · simp [h0]
  · by_cases h401 : status 0 = 401
    · simp [h0, h401, hinner]
      by_cases h1 : respOk (status 1) = true <;> simp [h1]
    · simp [h0, h401]

/-- C5: `callEndpoint` performs at most two upstream fetches; a success
returns after one fetch; a 401 on the first attempt clears the token
cache and retries exactly once, after which any non-success (a second
401 included) is terminal; any other non-success on the first attempt is
terminal after one fetch with no cache clear. -/
theorem call_endpoint_401_retry_once :
    (∀ status : Nat → Nat, (callEndpointModel status 0 false).fetches ≤ 2) ∧
    (∀ status : Nat → Nat, respOk (status 0) = true →
      callEndpointModel status 0 false = ⟨.ok (), 1, false⟩) ∧
    (∀ status : Nat → Nat, status 0 = 401 →
      (callEndpointModel status 0 false).clearedCache = true ∧
      (callEndpointModel status 0 false).fetches = 2 ∧
      (respOk (status 1) = true → (callEndpointModel status 0 false).result = .ok ()) ∧
      (respOk (status 1) = false →
        (callEndpointModel status 0 false).result = .error (status 1))) ∧
    (∀ status : Nat → Nat, respOk (status 0) = false → status 0 ≠ 401 →
      callEndpointModel status 0 false = ⟨.error (status 0), 1, false⟩) := by
  refine ⟨?_, ?_, ?_, ?_⟩
  · intro status
    rw [callEndpointModel_eq]
    by_cases h0 : respOk (status 0) = true
    · simp [h0]
    · by_cases h401 : status 0 = 401
      · simp [h0, h401, show respOk 401 = false from rfl]
        by_cases h1 : respOk (status 1) = true <;> simp [h1]
      · simp [h0, h401]
  · intro status h0
    rw [callEndpointModel_eq]
    simp [h0]
  · intro status h401
    have h0 : respOk (status 0) = false := by
      rw [h401]; decide
    rw [callEndpointModel_eq]
    by_cases h1 : respOk (status 1) = true <;>
      simp [h0, h401, h1, show respOk 401 = false from rfl]
  · intro status h0 h401
    rw [callEndpointModel_eq]
    simp [h0, h401]

/-- C5 witness: the four parts at the concrete status sequences
401-then-200, 401-then-401, constant 404 and constant 200. -/
theorem call_endpoint_401_retry_once_witness :
    (callEndpointModel (fun a => if a = 0 then 401 else 200) 0 false).fetches ≤ 2 ∧
    callEndpointModel (fun _ => 200) 0 false = ⟨.ok (), 1, false⟩ ∧
    (callEndpointModel (fun _ => 401) 0 false).result = .error 401 ∧
    (callEndpointModel (fun _ => 401) 0 false).fetches = 2 ∧
    callEndpointModel (fun _ => 404) 0 false = ⟨.error 404, 1, false⟩ := by
  refine ⟨call_endpoint_401_retry_once.1 _, ?_, ?_, ?_, ?_⟩
  · exact call_endpoint_401_retry_once.2.1 (fun _ => 200) (by decide)
  · exact (call_endpoint_401_retry_once.2.2.1 (fun _ => 401) rfl).2.2.2 (by decide)
  · exact (call_endpoint_401_retry_once.2.2.1 (fun _ => 401) rfl).2.1
  · exact call_endpoint_401_retry_once.2.2.2 (fun _ => 404) (by decide) (by decide)

/-- C6 counterexample: with no status available the classifier substitutes
500 before the message rules run, so the substring fallback never fires —
`"invalid request"` classifies as UPSTREAM_ERROR, not the claimed
CLIENT_ERROR (and `"token expired"` not the claimed AUTH_ERROR). -/
theorem message_fallback_dead_without_status :
    (classifyError (.err "invalid request") none).type ≠ .CLIENT_ERROR ∧
    (classifyError (.err "invalid request") none).type = .UPSTREAM_ERROR ∧
    (classifyError (.err "token expired") none).type ≠ .AUTH_ERROR := by
  decide

/-- C6 (amended): the status-first rules hold as claimed
(401 → AUTH_ERROR retryable + clears cache; 429 → CLIENT_ERROR retryable;
other 4xx → CLIENT_ERROR non-retryable; ≥ 500 → UPSTREAM_ERROR retryable;
< 400 → SYSTEM_ERROR non-retryable).  The message-substring fallback
(token/auth → AUTH_ERROR, network/timeout → UPSTREAM_ERROR,
invalid/malformed → CLIENT_ERROR in that precedence, else SYSTEM_ERROR)
applies only when an explicit status below 400 accompanies the message:
with no status available `classifyError` substitutes 500 and every
message classifies as UPSTREAM_ERROR. -/
theorem error_classification_rules :
    (∀ txt, classifyHttpError 401 txt =
      ⟨.AUTH_ERROR, 401, "Authentication failed", true, true⟩) ∧
    (∀ txt, classifyHttpError 429 txt =
      ⟨.CLIENT_ERROR, 429, "Rate limit exceeded", true, false⟩) ∧
    (∀ (st : Nat) txt, 400 ≤ st → st < 500 → st ≠ 401 → st ≠ 429 →
      classifyHttpError st txt =
        ⟨.CLIENT_ERROR, st, getClientErrorMessage st, false, false⟩) ∧
    (∀ (st : Nat) txt, 500 ≤ st →
      classifyHttpError st txt =
        ⟨.UPSTREAM_ERROR, st, "Upstream service error", true, false⟩) ∧
    (∀ (st : Nat) txt, st < 400 →
      classifyHttpError st txt =
        ⟨.SYSTEM_ERROR, st, "Unexpected response status", false, false⟩) ∧
    (∀ m, classifyError (.err m) none = classifyErrorByMessage m 500) ∧
    (∀ m, (classifyError (.err m) none).type = .UPSTREAM_ERROR) ∧
    (∀ m (st : Nat), st < 400 →
      (containsSub (lowerStr m) "token" || containsSub (lowerStr m) "auth" ||
        containsSub (lowerStr m) "unauthorized") = true →
      (classifyErrorByMessage m st).type = .AUTH_ERROR) ∧
    (∀ m (st : Nat), st < 400 →
      (containsSub (lowerStr m) "token" || containsSub (lowerStr m) "auth" ||
        containsSub (lowerStr m) "unauthorized") = false →
      (containsSub (lowerStr m) "network" || containsSub (lowerStr m) "timeout" ||
        containsSub (lowerStr m) "connection") = true →
      (classifyErrorByMessage m st).type = .UPSTREAM_ERROR) ∧
    (∀ m (st : Nat), st < 400 →
      (containsSub (lowerStr m) "token" || containsSub (lowerStr m) "auth" ||
        containsSub (lowerStr m) "unauthorized") = false →
      (containsSub (lowerStr m) "network" || containsSub (lowerStr m) "timeout" ||
        containsSub (lowerStr m) "connection") = false →
      (containsSub (lowerStr m) "invalid" || containsSub (lowerStr m) "malformed" ||
        containsSub (lowerStr m) "bad request") = true →
      (classifyErrorByMessage m st).type = .CLIENT_ERROR) ∧
    (∀ m (st : Nat), st < 400 →
      (containsSub (lowerStr m) "token" || containsSub (lowerStr m) "auth" ||
        containsSub (lowerStr m) "unauthorized") = false →
      (containsSub (lowerStr m) "network" || containsSub (lowerStr m) "timeout" ||
        containsSub (lowerStr m) "connection") = false →
      (containsSub (lowerStr m) "invalid" || containsSub (lowerStr m) "malformed" ||
        containsSub (lowerStr m) "bad request") = false →
      (classifyErrorByMessage m st).type = .SYSTEM_ERROR) := by
  refine ⟨?_, ?_, ?_, ?_, ?_, ?_, ?_, ?_, ?_, ?_, ?_⟩
  · intro txt; rfl
  · intro txt; rfl
  · intro st txt h1 h2 h3 h4
    have hin : 400 ≤ st ∧ st < 500 := ⟨h1, h2⟩
    simp [classifyHttpError, hin, h3, h4]
  · intro st txt h5
    have hout : ¬ (400 ≤ st ∧ st < 500) := by omega
    simp [classifyHttpError, hout, h5]
  · intro st txt hlt
    have hout : ¬ (400 ≤ st ∧ st < 500) := by omega
    have hout2 : ¬ (500 ≤ st) := by omega
    simp [classifyHttpError, hout, hout2]
  · intro m; rfl
  · intro m; rfl
  · intro m st hlt hsub
    have h5 : ¬ (500 ≤ st) := by omega
    have h401 : st ≠ 401 := by omega
    have h4 : ¬ (400 ≤ st ∧ st < 500) := by omega
    simp [classifyErrorByMessage, h5, h401, h4, hsub]
  · intro m st hlt hs1 hs2
    have h5 : ¬ (500 ≤ st) := by omega
    have h401 : st ≠ 401 := by omega
    have h4 : ¬ (400 ≤ st ∧ st < 500) := by omega
    simp only [Bool.or_eq_false_iff] at hs1
    simp [classifyErrorByMessage, h5, h401, h4, hs1.1, hs1.2, hs2]
  · intro m st hlt hs1 hs2 hs3
    have h5 : ¬ (500 ≤ st) := by omega
    have h401 : st ≠ 401 := by omega
    have h4 : ¬ (400 ≤ st ∧ st < 500) := by omega
    simp only [Bool.or_eq_false_iff] at hs1 hs2
    simp [classifyErrorByMessage, h5, h401, h4,
      hs1.1.1, hs1.1.2, hs1.2, hs2.1.1, hs2.1.2, hs2.2, hs3]
  · intro m st hlt hs1 hs2 hs3
    have h5 : ¬ (500 ≤ st) := by omega
    have h401 : st ≠ 401 := by omega
    have h4 : ¬ (400 ≤ st ∧ st < 500) := by omega
    simp only [Bool.or_eq_false_iff] at hs1 hs2 hs3
    simp [classifyErrorByMessage, h5, h401, h4,
      hs1.1.1, hs1.1.2, hs1.2, hs2.1.1, hs2.1.2, hs2.2,
      hs3.1.1, hs3.1.2, hs3.2]

/-- C6 witness: the classification rules at concrete statuses and
messages (404, 503, 302, and the substring fallbacks at status 0). -/
theorem error_classification_rules_witness :
    classifyHttpError 401 "x" = ⟨.AUTH_ERROR, 401, "Authentication failed", true, true⟩ ∧
    classifyHttpError 404 "x" = ⟨.CLIENT_ERROR, 404, "Resource not found", false, false⟩ ∧
    classifyHttpError 503 "x" = ⟨.UPSTREAM_ERROR, 503, "Upstream service error", true, false⟩ ∧
    classifyHttpError 302 "x" = ⟨.SYSTEM_ERROR, 302, "Unexpected response status", false, false⟩ ∧
    (classifyErrorByMessage "token expired" 0).type = .AUTH_ERROR ∧
    (classifyErrorByMessage "network down" 0).type = .UPSTREAM_ERROR ∧
    (classifyErrorByMessage "malformed body" 0).type = .CLIENT_ERROR ∧
    (classifyErrorByMessage "boom" 0).type = .SYSTEM_ERROR ∧
    (classifyError (.err "boom") none).type = .UPSTREAM_ERROR := by
  refine ⟨error_classification_rules.1 "x", ?_, ?_, ?_, ?_, ?_, ?_, ?_,
    error_classification_rules.2.2.2.2.2.2.1 "boom"⟩
  · exact error_classification_rules.2.2.1 404 "x" (by decide) (by decide)
      (by decide) (by decide)
  · exact error_classification_rules.2.2.2.1 503 "x" (by decide)
  · exact error_classification_rules.2.2.2.2.1 302 "x" (by decide)
  · exact error_classification_rules.2.2.2.2.2.2.2.1 "token expired" 0
      (by decide) (by decide)
  · exact error_classification_rules.2.2.2.2.2.2.2.2.1 "network down" 0
      (by decide) (by decide) (by decide)
  · exact error_classification_rules.2.2.2.2.2.2.2.2.2.1 "malformed body" 0
      (by decide) (by decide) (by decide) (by decide)
  · exact error_classification_rules.2.2.2.2.2.2.2.2.2.2 "boom" 0
      (by decide) (by decide) (by decide) (by decide)

/-- C7 counterexample: with no environment id, an empty memory cache, an
expired entry present only in the durable store, and failing discovery,
`getProjectId` fails — the durable-store entry is never used stale, so a
cached entry of the durable kind does not prevent failure. -/
theorem stale_kv_only_entry_not_used :
    (getProjectIdModel none none
      (some ⟨"cached-project", 0, 5, .discovery, 1⟩) none 10).result = none := by
  decide

/-- C7 (amended): when discovery fails, the stale last-resort fallback is
the in-memory entry only — an in-memory entry (fresh or expired) is
returned, while an expired entry held only in the durable store is
skipped (only a fresh durable entry is promoted), and resolution fails
exactly when the in-memory cache is empty. -/
theorem project_id_stale_memory_fallback :
    (∀ (c : ProjectCache) (kv : Option ProjectCache) (now : Nat),
      (∀ k, kv = some k → isCacheValid now k = false) →
      (getProjectIdModel none (some c) kv none now).result = some c.project_id) ∧
    (∀ (kv : Option ProjectCache) (now : Nat),
      (∀ k, kv = some k → isCacheValid now k = false) →
      (getProjectIdModel none none kv none now).result = none) ∧
    (∀ (k : ProjectCache) (now : Nat), isCacheValid now k = true →
      (getProjectIdModel none none (some k) none now).result = some k.project_id ∧
      (getProjectIdModel none none (some k) none now).memCache = some k) := by
  refine ⟨?_, ?_, ?_⟩
  · intro c kv now hkv
    cases hval : isCacheValid now c with
    | true => simp [getProjectIdModel, hval]
    | false =>
      cases kv with
      | none => simp [getProjectIdModel, hval]
      | some k =>
        have hk := hkv k rfl
        simp [getProjectIdModel, hval, hk]
  · intro kv now hkv
    cases kv with
    | none => simp [getProjectIdModel]
    | some k =>
      have hk := hkv k rfl
      simp [getProjectIdModel, hk]
  · intro k now hval
    constructor <;> simp [getProjectIdModel, hval]

/-- C7 witness: the amended fallback at concrete caches — an expired
memory entry is returned when discovery fails, an expired durable-only
entry is not, and a fresh durable entry is promoted. -/
theorem project_id_stale_memory_fallback_witness :
    (getProjectIdModel none (some ⟨"mem-project", 0, 5, .discovery, 1⟩)
      none none 10).result = some "mem-project" ∧
    (getProjectIdModel none none
      (some ⟨"kv-project", 0, 5, .discovery, 1⟩) none 10).result = none ∧
    (getProjectIdModel none none
      (some ⟨"kv-project", 0, 50, .discovery, 1⟩) none 10).result = some "kv-project" := by
  refine ⟨?_, ?_, ?_⟩
  · exact project_id_stale_memory_fallback.1 ⟨"mem-project", 0, 5, .discovery, 1⟩
      none 10 (fun k hk => by cases hk)
  · exact project_id_stale_memory_fallback.2.1
      (some ⟨"kv-project", 0, 5, .discovery, 1⟩) 10
      (fun k hk => by cases hk; decide)
  · exact (project_id_stale_memory_fallback.2.2
      ⟨"kv-project", 0, 50, .discovery, 1⟩ 10 (by decide)).1

/-- C8 counterexample: with an in-memory token whose `refresh_count` is 0
and a durable-store token at count 5, a refresh produces count 6 — not
the claimed previous-in-memory-count + 1 = 1, because `|| 0` re-reads the
durable store whenever the in-memory count is 0, not only when the token
is absent from memory. -/
theorem refresh_count_rereads_kv_on_zero :
    (performTokenRefresh (some ⟨"a", 900000, 0, 0, 0, "Bearer", ""⟩)
      (some ⟨"b", 900000, 5, 0, 0, "Bearer", ""⟩) "t" 3600 1000).refresh_count = 6 ∧
    (performTokenRefresh (some ⟨"a", 900000, 0, 0, 0, "Bearer", ""⟩)
      (some ⟨"b", 900000, 5, 0, 0, "Bearer", ""⟩) "t" 3600 1000).refresh_count ≠
      (⟨"a", 900000, 0, 0, 0, "Bearer", ""⟩ : CachedTokenData).refresh_count + 1 := by
  decide

/-- C8 (amended): a successful refresh sets
`expiry_date = now + expires_in*1000` and
`refresh_count = previous + 1`, where the previous count is the in-memory
token's when that is nonzero and otherwise (token absent from memory or
in-memory count zero) the durable store's (0 when that is also absent);
the count is therefore positive and strictly above the in-memory count,
and the token is written through with a TTL clamped to the store's
maximum of 2^31 - 1 seconds. -/
theorem refresh_token_metadata :
    (∀ (memTok kvTok : Option CachedTokenData) (tok : String) (expiresIn now : Nat),
      (performTokenRefresh memTok kvTok tok expiresIn now).expiry_date =
        now + expiresIn * 1000 ∧
      (performTokenRefresh memTok kvTok tok expiresIn now).access_token = tok) ∧
    (∀ (m : CachedTokenData) (kvTok : Option CachedTokenData) (tok : String)
        (expiresIn now : Nat), m.refresh_count ≠ 0 →
      (performTokenRefresh (some m) kvTok tok expiresIn now).refresh_count =
        m.refresh_count + 1) ∧
    (∀ (kvt : CachedTokenData) (tok : String) (expiresIn now : Nat),
      (performTokenRefresh none (some kvt) tok expiresIn now).refresh_count =
        kvt.refresh_count + 1) ∧
    (∀ (m kvt : CachedTokenData) (tok : String) (expiresIn now : Nat),
      m.refresh_count = 0 →
      (performTokenRefresh (some m) (some kvt) tok expiresIn now).refresh_count =
        kvt.refresh_count + 1) ∧
    (∀ (memTok kvTok : Option CachedTokenData) (tok : String) (expiresIn now : Nat),
      1 ≤ (performTokenRefresh memTok kvTok tok expiresIn now).refresh_count ∧
      (∀ m, memTok = some m →
        m.refresh_count < (performTokenRefresh memTok kvTok tok expiresIn now).refresh_count)) ∧
    (∀ (memTok kvTok : Option CachedTokenData) (tok : String) (expiresIn now : Nat)
        (t : CachedTokenData) (ttl : Nat),
      refreshKvWrite memTok kvTok tok expiresIn now = some (t, ttl) →
      t = performTokenRefresh memTok kvTok tok expiresIn now ∧ ttl ≤ 2147483647) ∧
    (∀ (t : CachedTokenData) (now ttl : Nat),
      cacheTokenTtl t now = some ttl → ttl ≤ 2147483647) := by
  have httl : ∀ (t : CachedTokenData) (now ttl : Nat),
      cacheTokenTtl t now = some ttl → ttl ≤ 2147483647 := by
    intro t now ttl h
    simp only [cacheTokenTtl] at h
    split at h
    · injection h with h'
      omega
    · exact absurd h (by simp)
  refine ⟨?_, ?_, ?_, ?_, ?_, ?_, httl⟩
  · intro memTok kvTok tok expiresIn now
    exact ⟨rfl, rfl⟩
  · intro m kvTok tok expiresIn now hnz
    simp [performTokenRefresh, createTokenData, hnz]
  · intro kvt tok expiresIn now
    simp [performTokenRefresh, createTokenData]
  · intro m kvt tok expiresIn now hz
    simp [performTokenRefresh, createTokenData, hz]
  · intro memTok kvTok tok expiresIn now
    constructor
    · cases memTok with
      | none => cases kvTok <;> simp [performTokenRefresh, createTokenData]
      | some m =>
        by_cases hz : m.refresh_count = 0
        · cases kvTok <;> simp [performTokenRefresh, createTokenData, hz]
        · simp [performTokenRefresh, createTokenData, hz]
    · intro m hm
      subst hm
      by_cases hz : m.refresh_count = 0
      · cases kvTok <;> simp [performTokenRefresh, createTokenData, hz]
      · simp [performTokenRefresh, createTokenData, hz]
  · intro memTok kvTok tok expiresIn now t ttl h
    simp only [refreshKvWrite] at h
    cases hc : cacheTokenTtl (performTokenRefresh memTok kvTok tok expiresIn now) now with
    | none => rw [hc] at h; exact absurd h (by simp)
    | some ttl' =>
      rw [hc] at h
      simp at h
      exact ⟨h.1.symm, h.2 ▸ httl _ now ttl' hc⟩

/-- C8 witness: the amended refresh rules at concrete tokens — memory
count 3 continues to 4; durable-only count 5 continues to 6; the computed
expiry and a concrete clamped TTL bound. -/
theorem refresh_token_metadata_witness :
    (performTokenRefresh (some ⟨"a", 900000, 3, 0, 0, "Bearer", ""⟩)
      (some ⟨"b", 900000, 5, 0, 0, "Bearer", ""⟩) "t" 3600 1000).refresh_count = 4 ∧
    (performTokenRefresh none (some ⟨"b", 900000, 5, 0, 0, "Bearer", ""⟩)
      "t" 3600 1000).refresh_count = 6 ∧
    (performTokenRefresh none none "t" 3600 1000).expiry_date = 3601000 ∧
    (∀ ttl, cacheTokenTtl ⟨"t", 99999999999999, 1, 0, 0, "Bearer", ""⟩ 0 = some ttl →
      ttl ≤ 2147483647) := by
  refine ⟨?_, ?_, ?_, ?_⟩
  · exact refresh_token_metadata.2.1 ⟨"a", 900000, 3, 0, 0, "Bearer", ""⟩
      (some ⟨"b", 900000, 5, 0, 0, "Bearer", ""⟩) "t" 3600 1000 (by decide)
  · exact refresh_token_metadata.2.2.1 ⟨"b", 900000, 5, 0, 0, "Bearer", ""⟩ "t" 3600 1000
  · exact (refresh_token_metadata.1 none none "t" 3600 1000).1
  · intro ttl h
    exact refresh_token_metadata.2.2.2.2.2.2 ⟨"t", 99999999999999, 1, 0, 0, "Bearer", ""⟩
      0 ttl h

theorem retryGo_step {E V : Type} (op : Nat → Except E V) (rand : Nat → ℚ)
    (b M j : ℚ) (a r : Nat) (e : E) (hop : op a = .error e) :
    retryGo op rand b M j a (r + 1) =
      ⟨(retryGo op rand b M j (a + 1) r).result,
       (retryGo op rand b M j (a + 1) r).invocations + 1,
       backoffDelay b M j a (rand a) :: (retryGo op rand b M j (a + 1) r).delays⟩ := by
  simp [retryGo, hop]

theorem retryGo_invocations_le {E V : Type} (op : Nat → Except E V) (rand : Nat → ℚ)
    (b M j : ℚ) :
    ∀ (r a : Nat), (retryGo op rand b M j a r).invocations ≤ r + 1 := by
  intro r
  induction r with
  | zero =>
    intro a
    cases h : op a <;> simp [retryGo, h]
  | succ r ih =>
    intro a
    cases h : op a with
    | ok v => simp [retryGo, h]
    | error e =>
      rw [retryGo_step op rand b M j a r e h]
      have := ih (a + 1)
      simp only []
      omega

theorem retryGo_delay_formula {E V : Type} (op : Nat → Except E V) (rand : Nat → ℚ)
    (b M j : ℚ) :
    ∀ (r a i : Nat) (d : ℚ),
      ((retryGo op rand b M j a r).delays).get? i = some d →
      d = backoffDelay b M j (a + i) (rand (a + i)) := by
  intro r
  induction r with
  | zero =>
    intro a i d h
    cases hop : op a <;> simp [retryGo, hop] at h
  | succ r ih =>
    intro a i d h
    cases hop : op a with
    | ok v => simp [retryGo, hop] at h
    | error e =>
      rw [retryGo_step op rand b M j a r e hop] at h
      cases i with
      | zero =>
        simp at h
        simp [← h]
      | succ i =>
        simp only [List.get?_cons_succ] at h
        have heq := ih (a + 1) i d h
        have harith : a + 1 + i = a + (i + 1) := by omega
        rw [heq, harith]

theorem retryGo_all_fail {E V : Type} (op : Nat → Except E V) (rand : Nat → ℚ)
    (b M j : ℚ) (err : Nat → E) :
    ∀ (r a : Nat), (∀ k, a ≤ k → k ≤ a + r → op k = .error (err k)) →
      (retryGo op rand b M j a r).result = .error (err (a + r)) ∧
      (retryGo op rand b M j a r).invocations = r + 1 := by
  intro r
  induction r with
  | zero =>
    intro a hfail
    have h0 : op a = .error (err a) := hfail a le_rfl (by omega)
    simp [retryGo, h0]
  | succ r ih =>
    intro a hfail
    have h0 : op a = .error (err a) := hfail a le_rfl (by omega)
    have hrest := ih (a + 1) (fun k hk1 hk2 => hfail k (by omega) (by omega))
    rw [retryGo_step op rand b M j a r (err a) h0]
    constructor
    · simp only []
      rw [hrest.1]
      have harith : a + 1 + r = a + (r + 1) := by omega
      rw [harith]
    · simp only []
      rw [hrest.2]

/-- C9: `executeWithExponentialBackoff` invokes the operation at most
`maxRetries + 1` times; every inter-attempt delay at index `i` equals
`min(baseDelayMs * 2^i, maxDelayMs)` plus `jitterFactor` times that
capped delay times the `Math.random()` draw of attempt `i`; and when
every attempt up to `maxRetries` throws, the run performs exactly
`maxRetries + 1` invocations and propagates the last attempt's error. -/
theorem exponential_backoff_bounded :
    (∀ (E V : Type) (op : Nat → Except E V) (rand : Nat → ℚ) (maxRetries : Nat)
        (b M j : ℚ),
      (executeWithExponentialBackoff op rand maxRetries b M j).invocations ≤
        maxRetries + 1) ∧
    (∀ (E V : Type) (op : Nat → Except E V) (rand : Nat → ℚ) (maxRetries : Nat)
        (b M j : ℚ) (i : Nat) (d : ℚ),
      ((executeWithExponentialBackoff op rand maxRetries b M j).delays).get? i = some d →
      d = backoffDelay b M j i (rand i)) ∧
    (∀ (E V : Type) (op : Nat → Except E V) (rand : Nat → ℚ) (maxRetries : Nat)
        (b M j : ℚ) (err : Nat → E),
      (∀ k, k ≤ maxRetries → op k = .error (err k)) →
      (executeWithExponentialBackoff op rand maxRetries b M j).result =
        .error (err maxRetries) ∧
      (executeWithExponentialBackoff op rand maxRetries b M j).invocations =
        maxRetries + 1) := by
  refine ⟨?_, ?_, ?_⟩
  · intro E V op rand maxRetries b M j
    exact retryGo_invocations_le op rand b M j maxRetries 0
  · intro E V op rand maxRetries b M j i d h
    have := retryGo_delay_formula op rand b M j maxRetries 0 i d h
    simpa using this
  · intro E V op rand maxRetries b M j err hfail
    have := retryGo_all_fail op rand b M j err maxRetries 0
      (fun k hk1 hk2 => hfail k (by omega))
    simpa using this

/-- C9 witness: four failing attempts with `maxRetries = 3`,
`base = 1000`, `max = 10000`, `jitter = 0.1` and draw `1/2` per attempt:
four invocations, the delay at index 2 equals the formula, and the last
error is propagated. -/
theorem exponential_backoff_bounded_witness :
    (executeWithExponentialBackoff (fun a => (Except.error a : Except Nat Nat))
      (fun _ => 1/2) 3 1000 10000 (1/10)).invocations ≤ 4 ∧
    (∀ d, ((executeWithExponentialBackoff (fun a => (Except.error a : Except Nat Nat))
        (fun _ => 1/2) 3 1000 10000 (1/10)).delays).get? 2 = some d →
      d = backoffDelay 1000 10000 (1/10) 2 (1/2)) ∧
    (executeWithExponentialBackoff (fun a => (Except.error a : Except Nat Nat))
      (fun _ => 1/2) 3 1000 10000 (1/10)).result = .error 3 := by
  refine ⟨exponential_backoff_bounded.1 Nat Nat _ _ 3 _ _ _, ?_, ?_⟩
  · intro d h
    exact exponential_backoff_bounded.2.1 Nat Nat _ _ 3 _ _ _ 2 d h
  · exact (exponential_backoff_bounded.2.2 Nat Nat _ _ 3 _ _ _ (fun k => k)
      (fun k _ => rfl)).1

/-- C10: `buildCloudCodeRequestBody` never writes to a pre-existing heap
object: every address allocated before the call maps to the same object
afterwards — for `countTokens` the inner request is copied into a fresh
object before the `model` field is assigned (the write hits only the
fresh copy), and for every other action the original body is wrapped by
reference without any write.  In particular the caller's body object is
unchanged. -/
theorem build_request_body_frame :
    ∀ (h : Heap) (bodyAddr : Nat) (model action projectId : String) (a : Nat),
      a < h.length →
      heapGet (buildCloudCodeRequestBody h bodyAddr model action projectId).1 a =
        heapGet h a := by
  intro h bodyAddr model action projectId a ha
  unfold buildCloudCodeRequestBody
  by_cases hact : action = "countTokens"
  · rw [if_pos hact]
    simp only [heapAlloc, heapWrite, heapGet]
    rw [List.getElem?_append_left, List.getElem?_set_ne, List.getElem?_append_left ha]
    · omega
    · rw [List.length_set, List.length_append]
      omega
  · rw [if_neg hact]
    simp only [heapAlloc, heapGet]
    exact List.getElem?_append_left ha

/-- C10 witness: the frame property at a concrete two-object heap for
the `countTokens` action, at the body's own address. -/
theorem build_request_body_frame_witness :
    heapGet (buildCloudCodeRequestBody
      [[("generateContentRequest", .ref 1), ("x", .str "y")],
       [("contents", .str "c")]] 0 "gemini-2.5-pro" "countTokens" "proj").1 0 =
      heapGet [[("generateContentRequest", .ref 1), ("x", .str "y")],
       [("contents", .str "c")]] 0 := by
  exact build_request_body_frame
    [[("generateContentRequest", .ref 1), ("x", .str "y")], [("contents", .str "c")]]
    0 "gemini-2.5-pro" "countTokens" "proj" 0 (by decide)
